import Mathlib

/-!
Shallow embedding of the token-verification and certificate-cache core of the
identity-toolkit Go client, together with proofs checking the repository's
natural-language specification against the code.

Conventions of the embedding:
* Go strings that are processed character by character (the raw JWT string and
  HTTP header values) are modelled as `List Char`; all segment content is ASCII
  in every scenario of interest, so one `Char` stands for one byte.
* Go byte slices are `List Nat` (each entry intended `< 256`).
* `time.Time` values are modelled by their (seconds, nanoseconds) pair;
  `time.Duration` values by their signed 64-bit nanosecond count, carried in
  `Int` with explicit wrapping where the Go code can overflow.
* Library calls whose internals live outside this repository
  (`encoding/json` syntactic parsing, `pem.Decode`, `x509.ParseCertificate`,
  `x509.Certificate.CheckSignature`) enter the model as explicit function
  parameters, while the repository's own logic around them is embedded
  faithfully.  `encoding/base64` and `strconv.Atoi` are small enough that they
  are embedded directly.
-/

namespace Gitkit

/-- Go string processed character-wise. -/
abbrev Str := List Char

/-- Models `strings.Split(s, sep)` for a one-character separator: splits
around every occurrence of `sep`; splitting the empty string yields `[[]]`. -/
def splitOnChar (sep : Char) : Str → List Str
  | [] => [[]]
  | c :: rest =>
    match splitOnChar sep rest with
    | [] => [[]]
    | seg :: segs => if c = sep then [] :: seg :: segs else (c :: seg) :: segs

/-- Models `strings.Split(token, ".")` in `VerifyToken`. -/
def splitDot : Str → List Str := splitOnChar '.'

/-- ASCII whitespace as recognised by `strings.TrimSpace` (the Go function
also trims a handful of non-ASCII Unicode spaces, which never occur in the
`Cache-Control` values this code consumes). -/
def isGoSpace (c : Char) : Bool :=
  c = ' ' ∨ c = '\t' ∨ c = '\n' ∨ c = '\r' ∨ c = '\x0b' ∨ c = '\x0c'

/-- Models `strings.TrimSpace`. -/
def trimSpace (s : Str) : Str :=
  ((s.dropWhile isGoSpace).reverse.dropWhile isGoSpace).reverse

/-- Decimal digit run to its value; `none` unless the list is a nonempty
all-digit run.  Helper for the `strconv.Atoi` model. -/
def digitsVal : Str → Option Nat
  | [] => none
  | [c] => if c.isDigit then some (c.toNat - 48) else none
  | c :: rest =>
    if c.isDigit then
      match digitsVal rest with
      | some n => some ((c.toNat - 48) * 10 ^ rest.length + n)
      | none => none
    else none

/-- Models `strconv.Atoi`: optional sign, a nonempty digit run, and the
64-bit range check (`Atoi` fails with `ErrRange` outside `int64`). -/
def goAtoi (s : Str) : Option Int :=
  match s with
  | '+' :: rest =>
    (digitsVal rest).bind fun n =>
      if (n : Int) ≤ 9223372036854775807 then some (n : Int) else none
  | '-' :: rest =>
    (digitsVal rest).bind fun n =>
      if (n : Int) ≤ 9223372036854775808 then some (-(n : Int)) else none
  | _ =>
    (digitsVal s).bind fun n =>
      if (n : Int) ≤ 9223372036854775807 then some (n : Int) else none

/-- Two's-complement wrap of an integer into the signed 64-bit range, used
where Go's `int64` arithmetic can overflow. -/
def wrap64 (x : Int) : Int := (x + 2 ^ 63) % 2 ^ 64 - 2 ^ 63

/-- Models `time.Duration(d) * time.Second`: int64 multiplication by 10⁹,
wrapping on overflow. -/
def durationSeconds (d : Int) : Int := wrap64 (d * 1000000000)

end Gitkit

namespace Gitkit

/-! ## Base64 (encoding/base64, URLEncoding alphabet) -/

/-- Character at the given index of the base64url alphabet
(`A-Z a-z 0-9 - _`), as used by Go's `base64.URLEncoding`. -/
def b64Char (n : Nat) : Char :=
  if n < 26 then Char.ofNat (65 + n)
  else if n < 52 then Char.ofNat (71 + n)
  else if n < 62 then Char.ofNat (n - 4)
  else if n = 62 then '-' else '_'

/-- Index of a character in the base64url alphabet, `none` for characters
outside it (including the padding character `=`). -/
def b64Index (c : Char) : Option Nat :=
  if 'A' ≤ c ∧ c ≤ 'Z' then some (c.toNat - 65)
  else if 'a' ≤ c ∧ c ≤ 'z' then some (c.toNat - 71)
  else if '0' ≤ c ∧ c ≤ '9' then some (c.toNat + 4)
  else if c = '-' then some 62
  else if c = '_' then some 63
  else none

/-- Models `base64.URLEncoding.DecodeString` on input already stripped of
`\r`/`\n`: processes four-character quanta, accepts `=`-padding only at the
very end, and (like Go's default non-strict decoder) ignores unused trailing
bits of a final partial quantum. -/
def b64decode : Str → Option (List Nat)
  | [] => some []
  | c1 :: c2 :: c3 :: c4 :: rest =>
    match b64Index c1, b64Index c2 with
    | some n1, some n2 =>
      if c3 = '=' then
        if c4 = '=' ∧ rest = [] then some [n1 * 4 + n2 / 16] else none
      else
        match b64Index c3 with
        | some n3 =>
          if c4 = '=' then
            if rest = [] then some [n1 * 4 + n2 / 16, n2 % 16 * 16 + n3 / 4] else none
          else
            match b64Index c4 with
            | some n4 =>
              match b64decode rest with
              | some bs =>
                some ((n1 * 4 + n2 / 16) :: (n2 % 16 * 16 + n3 / 4) :: (n3 % 4 * 64 + n4) :: bs)
              | none => none
            | none => none
        | none => none
    | _, _ => none
  | _ => none

/-- Models the newline skipping Go's base64 decoder performs on its input. -/
def stripNewlines (s : Str) : Str := s.filter fun c => ¬(c = '\n' ∨ c = '\r')

/-- The padding switch of the source's `decodeSegment`: adds `==` when
`len(s) % 4 == 2` and `=` when it is `3`; any other remainder is passed
through unmodified. -/
def padSegment (s : Str) : Str :=
  if s.length % 4 = 2 then s ++ ['=', '=']
  else if s.length % 4 = 3 then s ++ ['=']
  else s

/-- Models the `decodeSegment` function of the source: pads the string and
then applies `base64.URLEncoding.DecodeString`.  The error is Go's
`base64.CorruptInputError`, represented by `Unit`. -/
def decodeSegment (s : Str) : Except Unit (List Nat) :=
  match b64decode (stripNewlines (padSegment s)) with
  | some bs => .ok bs
  | none => .error ()

/-- Modelled from the spec: `encode_unpadded_base64url`, the standard
unpadded base64url encoding (Go's `base64.RawURLEncoding.EncodeToString`)
that produces the JWT segments `decodeSegment` consumes. -/
def encodeUnpaddedBase64url : List Nat → Str
  | b1 :: b2 :: b3 :: rest =>
    b64Char (b1 / 4) :: b64Char (b1 % 4 * 16 + b2 / 16) ::
      b64Char (b2 % 16 * 4 + b3 / 64) :: b64Char (b3 % 64) ::
      encodeUnpaddedBase64url rest
  | [b1, b2] => [b64Char (b1 / 4), b64Char (b1 % 4 * 16 + b2 / 16), b64Char (b2 % 16 * 4)]
  | [b1] => [b64Char (b1 / 4), b64Char (b1 % 4 * 16)]
  | [] => []

end Gitkit

namespace Gitkit

/-! ## JSON (encoding/json) -/

/-- JSON values, as far as this client's payloads need them.  Numbers are
restricted to integers (the only numeric claims are the Unix timestamps
`iat`/`exp`, typed `int64` in the source; non-integral numbers would make
`json.Unmarshal` fail exactly like any other type mismatch). -/
inductive Json where
  | null
  | jbool (b : Bool)
  | jnum (n : Int)
  | jstr (s : String)
  | jarr (xs : List Json)
  | jobj (fields : List (String × Json))

/-- ASCII lower-casing of a character. -/
def lowerChar (c : Char) : Char :=
  if 'A' ≤ c ∧ c ≤ 'Z' then Char.ofNat (c.toNat + 32) else c

/-- ASCII lower-casing of a string. -/
def lowerAscii (s : String) : String := ⟨s.data.map lowerChar⟩

/-- Models `encoding/json`'s struct-field matching: an incoming object key
matches a field tag exactly or case-insensitively (the tags in the source are
all lower case, so this is equality after folding). -/
def keyMatches (k tag : String) : Bool := lowerAscii k = tag

/-- Unmarshals a JSON value into a `string` struct field: a JSON string sets
the field, `null` leaves it untouched, anything else is a type error. -/
def jsonAsString (v : Json) (old : String) : Except Unit String :=
  match v with
  | .jstr s => .ok s
  | .null => .ok old
  | _ => .error ()

/-- Unmarshals a JSON value into an `int64` struct field. -/
def jsonAsInt (v : Json) (old : Int) : Except Unit Int :=
  match v with
  | .jnum n => .ok n
  | .null => .ok old
  | _ => .error ()

/-- Unmarshals a JSON value into a `bool` struct field. -/
def jsonAsBool (v : Json) (old : Bool) : Except Unit Bool :=
  match v with
  | .jbool b => .ok b
  | .null => .ok old
  | _ => .error ()

/-- The anonymous claim-set struct `VerifyToken` unmarshals the payload
into, with Go zero values as defaults. -/
structure ClaimSet where
  iss : String := ""
  aud : String := ""
  iat : Int := 0
  exp : Int := 0
  userID : String := ""
  email : String := ""
  verified : Bool := false
  providerID : String := ""
  displayName : String := ""
  photoURL : String := ""
deriving DecidableEq

/-- Applies one JSON object entry to the claim-set struct, following the
field tags `iss, aud, iat, exp, user_id, email, verified, provider_id,
display_name, photo_url`; unknown keys are ignored. -/
def setClaimField (cs : ClaimSet) (k : String) (v : Json) : Except Unit ClaimSet :=
  if keyMatches k "iss" then (jsonAsString v cs.iss).map fun x => { cs with iss := x }
  else if keyMatches k "aud" then (jsonAsString v cs.aud).map fun x => { cs with aud := x }
  else if keyMatches k "iat" then (jsonAsInt v cs.iat).map fun x => { cs with iat := x }
  else if keyMatches k "exp" then (jsonAsInt v cs.exp).map fun x => { cs with exp := x }
  else if keyMatches k "user_id" then (jsonAsString v cs.userID).map fun x => { cs with userID := x }
  else if keyMatches k "email" then (jsonAsString v cs.email).map fun x => { cs with email := x }
  else if keyMatches k "verified" then (jsonAsBool v cs.verified).map fun x => { cs with verified := x }
  else if keyMatches k "provider_id" then (jsonAsString v cs.providerID).map fun x => { cs with providerID := x }
  else if keyMatches k "display_name" then (jsonAsString v cs.displayName).map fun x => { cs with displayName := x }
  else if keyMatches k "photo_url" then (jsonAsString v cs.photoURL).map fun x => { cs with photoURL := x }
  else .ok cs

/-- The decoder loop over the object entries of a claims document. -/
def applyClaimEntries (cs : ClaimSet) : List (String × Json) → Except Unit ClaimSet
  | [] => .ok cs
  | (k, v) :: rest =>
    match setClaimField cs k v with
    | .error e => .error e
    | .ok cs1 => applyClaimEntries cs1 rest

/-- Models `json.Unmarshal` of an already-parsed JSON document into the
claim-set struct: a JSON object fills matching fields entry by entry (later
duplicates overwrite earlier ones), a top-level `null` is a no-op, and any
other top level or any mismatched field type is an error.  (Go records the
first field error but still returns it from `Unmarshal`, so fail-fast gives
the same error/no-error verdict.) -/
def unmarshalClaims : Json → Except Unit ClaimSet
  | .jobj fields => applyClaimEntries {} fields
  | .null => .ok {}
  | _ => .error ()

/-- The anonymous header struct `VerifyToken` unmarshals the header into
(tags `alg` and `kid`). -/
structure JWTHeader where
  algorithm : String := ""
  keyID : String := ""
deriving DecidableEq

/-- Applies one JSON object entry to the header struct. -/
def setHeaderField (h : JWTHeader) (k : String) (v : Json) : Except Unit JWTHeader :=
  if keyMatches k "alg" then (jsonAsString v h.algorithm).map fun x => { h with algorithm := x }
  else if keyMatches k "kid" then (jsonAsString v h.keyID).map fun x => { h with keyID := x }
  else .ok h

/-- The decoder loop over the object entries of a header document. -/
def applyHeaderEntries (h : JWTHeader) : List (String × Json) → Except Unit JWTHeader
  | [] => .ok h
  | (k, v) :: rest =>
    match setHeaderField h k v with
    | .error e => .error e
    | .ok h1 => applyHeaderEntries h1 rest

/-- Models `json.Unmarshal` of a parsed JSON document into the header
struct. -/
def unmarshalHeader : Json → Except Unit JWTHeader
  | .jobj fields => applyHeaderEntries {} fields
  | .null => .ok {}
  | _ => .error ()

end Gitkit

namespace Gitkit

/-! ## Certificates (certs.go) -/

/-- Go map lookup over the association-list model of a map (keys unique). -/
def mapLookup {α : Type} : List (String × α) → String → Option α
  | [], _ => none
  | (k, v) :: rest, key => if k = key then some v else mapLookup rest key

/-- Rendering of a Go `error` value by `fmt`'s `%s` verb: `fmt` prints a nil
error as `%!s(<nil>)`. -/
def fmtGoError : Option String → String
  | none => "%!s(<nil>)"
  | some msg => msg

/-- The two error shapes `Certificates.Cert` can return: the not-found error
built with `fmt.Errorf`, or the stored last refresh error. -/
inductive CertLookupError where
  | notFound (msg : String)
  | lastError (msg : String)
deriving DecidableEq

/-- The `Certificates` struct: the key-id-indexed certificate map, the
endpoint URL, the last refresh error, and the delay programmed into the
refresh timer (`none` before any `update`).  Errors are carried as their Go
message strings. -/
structure Certificates (Cert : Type) where
  certs : List (String × Cert) := []
  url : String := ""
  err : Option String := none
  nextDelay : Option Int := none

/-- Models the `Cert` method: return the certificate when the key id is in
the map; otherwise, when no last error is recorded, return the
`fmt.Errorf("certificate not found for: %s", c.err)` error — note the source
formats `c.err`, which is nil on this branch, into the message rather than
the key id — and when a last error is recorded, return it. -/
def Certificates.lookupCert {Cert : Type} (c : Certificates Cert) (keyID : String) :
    Except CertLookupError Cert :=
  match mapLookup c.certs keyID with
  | some cert => .ok cert
  | none =>
    match c.err with
    | none => .error (.notFound ("certificate not found for: " ++ fmtGoError none))
    | some e => .error (.lastError e)

end Gitkit

namespace Gitkit

/-! ## Token verification (VerifyToken) -/

/-- The distinguishable errors `VerifyToken` can return.  `corruptInput`
stands for the `base64.CorruptInputError` that the header-segment decode
passes through verbatim (`return nil, err`), which is a different Go error
value from `ErrMalformed`. -/
inductive VError where
  | missingAudience
  | malformed
  | invalidAlgorithm
  | invalidIssuer
  | invalidAudience
  | invalidSignature
  | keyNotFound
  | expired
  | corruptInput
deriving DecidableEq

/-- The verified `Token` struct.  `time.Unix(sec, 0)` timestamps are
represented by their seconds. -/
structure Token where
  issuer : String
  audience : String
  issueAt : Int
  expireAt : Int
  localID : String
  email : String
  emailVerified : Bool
  providerID : String
  displayName : String
  photoURL : String
  tokenString : Str
deriving DecidableEq

/-- A `time.Time` instant: seconds and nanoseconds since the Unix epoch. -/
structure GoTime where
  sec : Int
  nsec : Int
deriving DecidableEq

/-- Models `t.After(time.Unix(sec, 0))` for an instant `t`. -/
def GoTime.afterUnix (t : GoTime) (sec : Int) : Bool :=
  decide (sec < t.sec ∨ (t.sec = sec ∧ 0 < t.nsec))

/-- Models the `inArray` helper of the source. -/
def inArray (a : List String) (e : String) : Bool :=
  match a with
  | [] => false
  | v :: rest => if v = e then true else inArray rest e

/-- The condition of the source's issuer check,
`issuers != nil && !inArray(issuers, claims.Iss)`: Go distinguishes a nil
slice from an empty non-nil slice, modelled by `Option`. -/
def issuerRejected (issuers : Option (List String)) (iss : String) : Bool :=
  match issuers with
  | none => false
  | some is => !inArray is iss

/-- The environment a `VerifyToken` run executes in: the syntactic JSON
parser (`encoding/json`, a library external to the repository; `none` models
a syntax error), the RSA/SHA-256 signature check
`cert.CheckSignature(x509.SHA256WithRSA, data, sig)` (`true` models a nil
error), and the current time `time.Now()`. -/
structure VerifyEnv (Cert : Type) where
  jsonParse : List Nat → Option Json
  checkSig : Cert → Str → List Nat → Bool
  now : GoTime

/-- Builds the returned `Token` from the claim set and the raw token string,
as the final composite literal of `VerifyToken` does. -/
def mkVerifiedToken (claims : ClaimSet) (token : Str) : Token :=
  { issuer := claims.iss
    audience := claims.aud
    issueAt := claims.iat
    expireAt := claims.exp
    localID := claims.userID
    email := claims.email
    emailVerified := claims.verified
    providerID := claims.providerID
    displayName := claims.displayName
    photoURL := claims.photoURL
    tokenString := token }

/-- The tail of `VerifyToken` from its `// Check the header` comment on:
header decode (a base64 failure is returned verbatim as that error, not as
`ErrMalformed`) and unmarshal; the `RS256` algorithm check; certificate
lookup (any failure becomes `ErrKeyNotFound`); signature decode; and the
signature check over the bytes of `parts[0] + "." + parts[1]`, minting the
`Token` only when it passes. -/
def verifyHeaderPhase {Cert : Type} (env : VerifyEnv Cert) (token : Str)
    (p0 p1 p2 : Str) (claims : ClaimSet) (certs : Certificates Cert) :
    Except VError Token :=
  match decodeSegment p0 with
  | .error _ => .error .corruptInput
  | .ok h =>
    match env.jsonParse h with
    | none => .error .malformed
    | some hj =>
      match unmarshalHeader hj with
      | .error _ => .error .malformed
      | .ok header =>
        if header.algorithm ≠ "RS256" then .error .invalidAlgorithm
        else
          match certs.lookupCert header.keyID with
          | .error _ => .error .keyNotFound
          | .ok cert =>
            match decodeSegment p2 with
            | .error _ => .error .malformed
            | .ok signature =>
              if env.checkSig cert (p0 ++ '.' :: p1) signature then
                .ok (mkVerifiedToken claims token)
              else .error .invalidSignature

/-- The `VerifyToken` function of the source, step for step: missing
audiences; segment split; payload decode and unmarshal (both failures map to
`ErrMalformed`); issuer, audience and expiry checks; then the header and
signature phase. -/
def VerifyToken {Cert : Type} (env : VerifyEnv Cert) (token : Str)
    (audiences : List String) (issuers : Option (List String))
    (certs : Certificates Cert) : Except VError Token :=
  if audiences.length = 0 then .error .missingAudience
  else
    match splitDot token with
    | [p0, p1, p2] =>
      match decodeSegment p1 with
      | .error _ => .error .malformed
      | .ok c =>
        match env.jsonParse c with
        | none => .error .malformed
        | some cj =>
          match unmarshalClaims cj with
          | .error _ => .error .malformed
          | .ok claims =>
            if issuerRejected issuers claims.iss then .error .invalidIssuer
            else if !inArray audiences claims.aud then .error .invalidAudience
            else if env.now.afterUnix claims.exp then .error .expired
            else verifyHeaderPhase env token p0 p1 p2 claims certs
    | _ => .error .malformed

end Gitkit

namespace Gitkit

/-! ## Certificate refresh (parseCerts, downloadCerts, update, cacheTime) -/

/-- Outcome of a Go computation that can return a value, return an error, or
panic at runtime. -/
inductive ParseOutcome (α : Type) where
  | ok (a : α)
  | fail (msg : String)
  | panic
deriving DecidableEq

/-- The external-library surface the certificate cache calls through:
`encoding/json` syntactic parsing with its error message, `pem.Decode`
(`some der` is the `Bytes` of the first PEM block, `none` means no block was
found, in which case Go's `pem.Decode` returns a nil pointer), and
`x509.ParseCertificate`. -/
structure CertEnv (Cert : Type) where
  jsonParse : List Nat → Option Json
  jsonErrMsg : List Nat → String
  pemDecode : String → Option (List Nat)
  parseCertificate : List Nat → Except String Cert

/-- Models `json.Unmarshal` of a parsed JSON document into
`map[string]string`: every value must be a JSON string (`null` stores the
zero value); a top-level `null` leaves the map empty.  Duplicate keys are
assumed absent (Go would keep the last one). -/
def jsonToStringMap : Json → Option (List (String × String))
  | .jobj fields => stringEntries fields
  | .null => some []
  | _ => none
where
  /-- Converts object entries to string pairs, failing on a non-string value. -/
  stringEntries : List (String × Json) → Option (List (String × String))
    | [] => some []
    | (k, .jstr s) :: rest => (stringEntries rest).map fun m => (k, s) :: m
    | (k, .null) :: rest => (stringEntries rest).map fun m => (k, "") :: m
    | _ => none

/-- The per-entry loop of `parseCerts`: `pem.Decode` finding no block leaves
`block` nil and the immediate `block.Bytes` dereference panics; a
`x509.ParseCertificate` failure returns that error for the whole parse. -/
def parseCertEntries {Cert : Type} (env : CertEnv Cert) :
    List (String × String) → ParseOutcome (List (String × Cert))
  | [] => .ok []
  | (k, v) :: rest =>
    match env.pemDecode v with
    | none => .panic
    | some der =>
      match env.parseCertificate der with
      | .error e => .fail e
      | .ok c =>
        match parseCertEntries env rest with
        | .ok cs => .ok ((k, c) :: cs)
        | .fail e => .fail e
        | .panic => .panic

/-- The `parseCerts` function of the source: unmarshal the response body as
a string-to-string map, then parse each value as a PEM-encoded certificate;
any failure abandons the whole parse with no partial map returned. -/
def parseCerts {Cert : Type} (env : CertEnv Cert) (resp : List Nat) :
    ParseOutcome (List (String × Cert)) :=
  match env.jsonParse resp with
  | none => .fail (env.jsonErrMsg resp)
  | some j =>
    match jsonToStringMap j with
    | none => .fail (env.jsonErrMsg resp)
    | some m => parseCertEntries env m

/-- An HTTP response as the refresh path consumes it: status code, the
`resp.Status` line used in the non-200 error message, the `Cache-Control`
header value (`""` when absent), and the body. -/
structure HttpResponse where
  status : Nat
  statusLine : String
  cacheControl : Str
  body : List Nat

/-- Models `retryInterval = 30 * time.Second` in nanoseconds. -/
def retryInterval : Int := 30 * 1000000000

/-- Models `defaultCertsCacheTime = 1 * time.Hour` in nanoseconds. -/
def defaultCertsCacheTime : Int := 3600 * 1000000000

/-- The directive scan of `cacheTime`: for each comma-separated part, trim
space and, when it starts with `max-age=` and the remainder parses with
`strconv.Atoi`, return that many seconds; otherwise keep scanning, falling
back to the one-hour default. -/
def cacheTimeScan : List Str → Int
  | [] => defaultCertsCacheTime
  | s :: rest =>
    let t := trimSpace s
    if ("max-age=".data).isPrefixOf t then
      match goAtoi (t.drop 8) with
      | some d => durationSeconds d
      | none => cacheTimeScan rest
    else cacheTimeScan rest

/-- The `cacheTime` function of the source, applied to the value of the
`Cache-Control` response header (Go's `Header.Get` yields `""` when the
header is absent, and `strings.Split("", ",")` yields one empty part). -/
def cacheTime (cacheControl : Str) : Int :=
  cacheTimeScan (splitOnChar ',' cacheControl)

/-- Models `downloadCerts`: a transport error or a non-200 status is an
error (the latter with the `"get <url>: <status>"` message), otherwise the
body is parsed and the cache time extracted from the response header. -/
def downloadCerts {Cert : Type} (env : CertEnv Cert) (url : String)
    (resp : Except String HttpResponse) :
    ParseOutcome (List (String × Cert) × Int) :=
  match resp with
  | .error e => .fail e
  | .ok r =>
    if r.status ≠ 200 then .fail ("get " ++ url ++ ": " ++ r.statusLine)
    else
      match parseCerts env r.body with
      | .panic => .panic
      | .fail e => .fail e
      | .ok certs => .ok (certs, cacheTime r.cacheControl)

/-- The `update` method of the source as a state transition on the
`Certificates` value, taking the HTTP fetch result as input: the fetch
outcome is stored in `err`; on failure the certificate map is left untouched
and the next refresh is scheduled after `retryInterval`; on success the new
map is installed and the next refresh scheduled after the extracted cache
time.  The previously pending timer is stopped and replaced in both cases
(`nextDelay` holds the newly programmed delay). -/
def Certificates.update {Cert : Type} (c : Certificates Cert) (env : CertEnv Cert)
    (resp : Except String HttpResponse) : ParseOutcome (Certificates Cert) :=
  match downloadCerts env c.url resp with
  | .panic => .panic
  | .fail e => .ok { c with err := some e, nextDelay := some retryInterval }
  | .ok (certs, cacheT) => .ok { c with err := none, certs := certs, nextDelay := some cacheT }

end Gitkit

namespace Gitkit

/-! ## Round-trip of the segment codec -/

/-- Alphabet characters decode back to their index. -/
theorem b64Index_b64Char : ∀ n < 64, b64Index (b64Char n) = some n := by decide

/-- Alphabet characters are distinct from the padding character. -/
theorem b64Char_ne_pad : ∀ n < 64, b64Char n ≠ '=' := by decide

/-- Alphabet characters are not the newlines the decoder would skip. -/
theorem b64Char_ne_newline : ∀ n < 64, ¬(b64Char n = '\n' ∨ b64Char n = '\r') := by decide

/-- Padding distributes over a leading whole quantum. -/
theorem padSegment_cons4 (c1 c2 c3 c4 : Char) (e : Str) :
    padSegment (c1 :: c2 :: c3 :: c4 :: e) = c1 :: c2 :: c3 :: c4 :: padSegment e := by
  have h : (c1 :: c2 :: c3 :: c4 :: e).length % 4 = e.length % 4 := by
    simp [List.length_cons]; omega
  simp only [padSegment, h]
  split_ifs <;> rfl

/-- Characters produced by the unpadded encoder are never newlines. -/
theorem encode_not_newline (x : List Nat) (hx : ∀ b ∈ x, b < 256) :
    ∀ c ∈ encodeUnpaddedBase64url x, ¬(c = '\n' ∨ c = '\r') := by
  induction x using encodeUnpaddedBase64url.induct with
  | case1 b1 b2 b3 rest ih =>
    have h1 : b1 < 256 := hx b1 (by simp)
    have h2 : b2 < 256 := hx b2 (by simp)
    have h3 : b3 < 256 := hx b3 (by simp)
    intro c hc
    simp only [encodeUnpaddedBase64url, List.mem_cons] at hc
    rcases hc with rfl | rfl | rfl | rfl | hc
    · exact b64Char_ne_newline _ (by omega)
    · exact b64Char_ne_newline _ (by omega)
    · exact b64Char_ne_newline _ (by omega)
    · exact b64Char_ne_newline _ (by omega)
    · exact ih (fun b hb => hx b (by simp [hb])) c hc
  | case2 b1 b2 =>
    have h1 : b1 < 256 := hx b1 (by simp)
    have h2 : b2 < 256 := hx b2 (by simp)
    intro c hc
    simp only [encodeUnpaddedBase64url, List.mem_cons] at hc
    rcases hc with rfl | rfl | rfl | hc
    · exact b64Char_ne_newline _ (by omega)
    · exact b64Char_ne_newline _ (by omega)
    · exact b64Char_ne_newline _ (by omega)
    · simp at hc
  | case3 b1 =>
    have h1 : b1 < 256 := hx b1 (by simp)
    intro c hc
    simp only [encodeUnpaddedBase64url, List.mem_cons] at hc
    rcases hc with rfl | rfl | hc
    · exact b64Char_ne_newline _ (by omega)
    · exact b64Char_ne_newline _ (by omega)
    · simp at hc
  | case4 =>
    intro c hc
    simp [encodeUnpaddedBase64url] at hc

/-- Padding preserves newline-freedom. -/
theorem padSegment_not_newline (s : Str) (hs : ∀ c ∈ s, ¬(c = '\n' ∨ c = '\r')) :
    ∀ c ∈ padSegment s, ¬(c = '\n' ∨ c = '\r') := by
  intro c hc
  unfold padSegment at hc
  split_ifs at hc
  · rcases List.mem_append.mp hc with hc | hc
    · exact hs c hc
    · simp only [List.mem_cons, List.not_mem_nil, or_false] at hc
      rcases hc with rfl | rfl <;> decide
  · rcases List.mem_append.mp hc with hc | hc
    · exact hs c hc
    · simp only [List.mem_cons, List.not_mem_nil, or_false] at hc
      subst hc
      decide
  · exact hs c hc

/-- Stripping newlines is the identity on newline-free strings. -/
theorem stripNewlines_of (s : Str) (hs : ∀ c ∈ s, ¬(c = '\n' ∨ c = '\r')) :
    stripNewlines s = s := by
  unfold stripNewlines
  rw [List.filter_eq_self]
  intro a ha
  simpa using hs a ha

/-- Decoding inverts unpadded encoding after the `decodeSegment` padding. -/
theorem b64decode_padSegment_encode (x : List Nat) (hx : ∀ b ∈ x, b < 256) :
    b64decode (padSegment (encodeUnpaddedBase64url x)) = some x := by
  induction x using encodeUnpaddedBase64url.induct with
  | case1 b1 b2 b3 rest ih =>
    have h1 : b1 < 256 := hx b1 (by simp)
    have h2 : b2 < 256 := hx b2 (by simp)
    have h3 : b3 < 256 := hx b3 (by simp)
    have e1 : b64Index (b64Char (b1 / 4)) = some (b1 / 4) := b64Index_b64Char _ (by omega)
    have e2 : b64Index (b64Char (b1 % 4 * 16 + b2 / 16)) = some (b1 % 4 * 16 + b2 / 16) :=
      b64Index_b64Char _ (by omega)
    have e3 : b64Index (b64Char (b2 % 16 * 4 + b3 / 64)) = some (b2 % 16 * 4 + b3 / 64) :=
      b64Index_b64Char _ (by omega)
    have e4 : b64Index (b64Char (b3 % 64)) = some (b3 % 64) := b64Index_b64Char _ (by omega)
    have p3 : b64Char (b2 % 16 * 4 + b3 / 64) ≠ '=' := b64Char_ne_pad _ (by omega)
    have p4 : b64Char (b3 % 64) ≠ '=' := b64Char_ne_pad _ (by omega)
    have hrest := ih (fun b hb => hx b (by simp [hb]))
    simp only [encodeUnpaddedBase64url]
    rw [padSegment_cons4]
    simp only [b64decode, e1, e2, e3, e4, if_neg p3, if_neg p4, hrest]
    simp only [Option.some.injEq, List.cons.injEq, and_true]
    exact ⟨by omega, by omega, by omega⟩
  | case2 b1 b2 =>
    have h1 : b1 < 256 := hx b1 (by simp)
    have h2 : b2 < 256 := hx b2 (by simp)
    have e1 : b64Index (b64Char (b1 / 4)) = some (b1 / 4) := b64Index_b64Char _ (by omega)
    have e2 : b64Index (b64Char (b1 % 4 * 16 + b2 / 16)) = some (b1 % 4 * 16 + b2 / 16) :=
      b64Index_b64Char _ (by omega)
    have e3 : b64Index (b64Char (b2 % 16 * 4)) = some (b2 % 16 * 4) :=
      b64Index_b64Char _ (by omega)
    have p3 : b64Char (b2 % 16 * 4) ≠ '=' := b64Char_ne_pad _ (by omega)
    simp only [encodeUnpaddedBase64url]
    rw [show padSegment [b64Char (b1 / 4), b64Char (b1 % 4 * 16 + b2 / 16), b64Char (b2 % 16 * 4)]
        = [b64Char (b1 / 4), b64Char (b1 % 4 * 16 + b2 / 16), b64Char (b2 % 16 * 4), '='] from by
      simp [padSegment]]
    simp only [b64decode, e1, e2, e3, if_neg p3]
    simp only [reduceIte, Option.some.injEq, List.cons.injEq, and_true]
    exact ⟨by omega, by omega⟩
  | case3 b1 =>
    have h1 : b1 < 256 := hx b1 (by simp)
    have e1 : b64Index (b64Char (b1 / 4)) = some (b1 / 4) := b64Index_b64Char _ (by omega)
    have e2 : b64Index (b64Char (b1 % 4 * 16)) = some (b1 % 4 * 16) :=
      b64Index_b64Char _ (by omega)
    simp only [encodeUnpaddedBase64url]
    rw [show padSegment [b64Char (b1 / 4), b64Char (b1 % 4 * 16)]
        = [b64Char (b1 / 4), b64Char (b1 % 4 * 16), '=', '='] from by simp [padSegment]]
    simp only [b64decode, e1, e2]
    simp only [reduceIte, and_self, Option.some.injEq, List.cons.injEq, and_true]
    omega
  | case4 =>
    simp [encodeUnpaddedBase64url, padSegment, b64decode]

/-- decodeSegment inverts the unpadded base64url encoding. -/
theorem decodeSegment_encode (x : List Nat) (hx : ∀ b ∈ x, b < 256) :
    decodeSegment (encodeUnpaddedBase64url x) = .ok x := by
  unfold decodeSegment
  rw [stripNewlines_of _ (padSegment_not_newline _ (encode_not_newline x hx))]
  rw [b64decode_padSegment_encode x hx]

end Gitkit

namespace Gitkit

/-- C9: for every byte sequence `x`, `decodeSegment` applied to the unpadded
base64url encoding of `x` returns `x` without error — covering lengths whose
encodings need 0, 1, or 2 padding characters. -/
theorem decodeSegment_roundTrip (x : List Nat) (hx : ∀ b ∈ x, b < 256) :
    decodeSegment (encodeUnpaddedBase64url x) = .ok x :=
  decodeSegment_encode x hx

/-- Witness for C9 at byte sequences of lengths 3, 4 and 5 (0, 2 and 1
padding characters respectively). -/
theorem decodeSegment_roundTrip_witness :
    (∀ b ∈ [110, 111, 112], b < 256) ∧
      decodeSegment (encodeUnpaddedBase64url [110, 111, 112]) = .ok [110, 111, 112] ∧
      decodeSegment (encodeUnpaddedBase64url [0, 1, 2, 255]) = .ok [0, 1, 2, 255] ∧
      decodeSegment (encodeUnpaddedBase64url [7, 8, 9, 10, 11]) = .ok [7, 8, 9, 10, 11] :=
  ⟨by decide,
    decodeSegment_roundTrip [110, 111, 112] (by decide),
    decodeSegment_roundTrip [0, 1, 2, 255] (by decide),
    decodeSegment_roundTrip [7, 8, 9, 10, 11] (by decide)⟩

end Gitkit

namespace Gitkit

/-! ## Concrete fixtures used by witnesses and counterexamples -/

/-- UTF-8 bytes of an ASCII string (Go's `[]byte(s)`). -/
def asciiBytes (s : String) : List Nat := s.data.map Char.toNat

/-- Bytes of the fixture header document: a JSON object with `alg` `RS256`
and `kid` `k`. -/
def hdrBytes : List Nat := asciiBytes "\x7b\"alg\":\"RS256\",\"kid\":\"k\"\x7d"

/-- The parsed form of `hdrBytes`. -/
def hdrJson : Json := .jobj [("alg", .jstr "RS256"), ("kid", .jstr "k")]

/-- Bytes of a payload with issuer `I`, audience `a` and expiry `1`. -/
def payloadABytes : List Nat := asciiBytes "\x7b\"iss\":\"I\",\"aud\":\"a\",\"exp\":1\x7d"

/-- The parsed form of `payloadABytes`. -/
def payloadAJson : Json := .jobj [("iss", .jstr "I"), ("aud", .jstr "a"), ("exp", .jnum 1)]

/-- Bytes of a payload with no `aud` member. -/
def payloadNoAudBytes : List Nat := asciiBytes "\x7b\"exp\":1\x7d"

/-- The parsed form of `payloadNoAudBytes`. -/
def payloadNoAudJson : Json := .jobj [("exp", .jnum 1)]

/-- Bytes of a payload with no `exp` member. -/
def payloadNoExpBytes : List Nat := asciiBytes "\x7b\"aud\":\"a\"\x7d"

/-- The parsed form of `payloadNoExpBytes`. -/
def payloadNoExpJson : Json := .jobj [("aud", .jstr "a")]

/-- Bytes of a payload whose audience `z` is not the accepted one. -/
def payloadBadAudBytes : List Nat := asciiBytes "\x7b\"aud\":\"z\",\"exp\":1\x7d"

/-- The parsed form of `payloadBadAudBytes`. -/
def payloadBadAudJson : Json := .jobj [("aud", .jstr "z"), ("exp", .jnum 1)]

/-- Bytes of a payload whose `aud` member has the wrong JSON type. -/
def payloadBadTypeBytes : List Nat := asciiBytes "\x7b\"aud\":5\x7d"

/-- The parsed form of `payloadBadTypeBytes`. -/
def payloadBadTypeJson : Json := .jobj [("aud", .jnum 5)]

/-- Bytes of a header whose `alg` member has the wrong JSON type. -/
def hdrBadTypeBytes : List Nat := asciiBytes "\x7b\"alg\":5\x7d"

/-- The parsed form of `hdrBadTypeBytes`. -/
def hdrBadTypeJson : Json := .jobj [("alg", .jnum 5)]

/-- Fixture JSON parser: the syntactic parse of exactly the five documents
the fixture tokens use, checkable by hand against the byte strings above;
everything else is a syntax error. -/
def fixtureParse (b : List Nat) : Option Json :=
  if b = hdrBytes then some hdrJson
  else if b = payloadABytes then some payloadAJson
  else if b = payloadNoAudBytes then some payloadNoAudJson
  else if b = payloadNoExpBytes then some payloadNoExpJson
  else if b = payloadBadAudBytes then some payloadBadAudJson
  else if b = payloadBadTypeBytes then some payloadBadTypeJson
  else if b = hdrBadTypeBytes then some hdrBadTypeJson
  else none

/-- Fixture verification environment: the fixture parser, a signature check
that accepts everything, and the given clock. -/
def fixtureEnv (t : GoTime) : VerifyEnv Unit :=
  { jsonParse := fixtureParse, checkSig := fun _ _ _ => true, now := t }

/-- Fixture certificate cache holding one certificate under key id `k`. -/
def fixtureCerts : Certificates Unit :=
  { certs := [("k", ())], url := "", err := none, nextDelay := none }

/-- Encoded fixture header segment. -/
def hdrSeg : Str := encodeUnpaddedBase64url hdrBytes

/-- Encoded fixture payload segment (issuer `I`, audience `a`, expiry 1). -/
def payloadASeg : Str := encodeUnpaddedBase64url payloadABytes

/-- Encoded fixture payload segment with no `aud` member. -/
def payloadNoAudSeg : Str := encodeUnpaddedBase64url payloadNoAudBytes

/-- Encoded fixture payload segment with no `exp` member. -/
def payloadNoExpSeg : Str := encodeUnpaddedBase64url payloadNoExpBytes

/-- Encoded fixture payload segment with the wrong audience. -/
def payloadBadAudSeg : Str := encodeUnpaddedBase64url payloadBadAudBytes

/-- A decodable dummy signature segment (`AA`, one zero byte). -/
def sigSeg : Str := "AA".data

/-- Fixture token with valid header, payload A and dummy signature. -/
def tokenA : Str := hdrSeg ++ '.' :: payloadASeg ++ '.' :: sigSeg

/-- The claim set payload A unmarshals to. -/
def claimsA : ClaimSet := { iss := "I", aud := "a", exp := 1 }

end Gitkit

namespace Gitkit

/-! ## Structure of VerifyToken runs -/

/-- A successful header-and-signature phase certifies every step of it. -/
theorem verifyHeaderPhase_ok {Cert : Type} (env : VerifyEnv Cert) (token p0 p1 p2 : Str)
    (claims : ClaimSet) (certs : Certificates Cert) (t : Token)
    (h : verifyHeaderPhase env token p0 p1 p2 claims certs = .ok t) :
    ∃ hbytes hj header cert sig,
      decodeSegment p0 = .ok hbytes ∧
      env.jsonParse hbytes = some hj ∧
      unmarshalHeader hj = .ok header ∧
      header.algorithm = "RS256" ∧
      certs.lookupCert header.keyID = .ok cert ∧
      decodeSegment p2 = .ok sig ∧
      env.checkSig cert (p0 ++ '.' :: p1) sig = true ∧
      t = mkVerifiedToken claims token := by
  unfold verifyHeaderPhase at h
  split at h
  · exact absurd h (by simp)
  next hbytes hdec =>
    split at h
    · exact absurd h (by simp)
    next hj hparse =>
      split at h
      · exact absurd h (by simp)
      next header hun =>
        split at h
        · exact absurd h (by simp)
        next halg =>
          split at h
          · exact absurd h (by simp)
          next cert hcert =>
            split at h
            · exact absurd h (by simp)
            next sig hsig =>
              split at h
              next hchk =>
                refine ⟨hbytes, hj, header, cert, sig, hdec, hparse, hun, ?_, hcert, hsig, hchk, ?_⟩
                · simpa using halg
                · simpa using h.symm
              · exact absurd h (by simp)

/-- The header phase never reports an invalid issuer. -/
theorem verifyHeaderPhase_ne_invalidIssuer {Cert : Type} (env : VerifyEnv Cert)
    (token p0 p1 p2 : Str) (claims : ClaimSet) (certs : Certificates Cert) :
    verifyHeaderPhase env token p0 p1 p2 claims certs ≠ .error .invalidIssuer := by
  unfold verifyHeaderPhase
  split
  · simp
  · split
    · simp
    · split
      · simp
      · split
        · simp
        · split
          · simp
          · split
            · simp
            · split <;> simp

/-- Once the payload has decoded and unmarshalled, `VerifyToken` reduces to
the issuer, audience and expiry checks followed by the header phase. -/
theorem VerifyToken_eq_checks {Cert : Type} (env : VerifyEnv Cert) (token : Str)
    (audiences : List String) (issuers : Option (List String)) (certs : Certificates Cert)
    (p0 p1 p2 : Str) (c : List Nat) (cj : Json) (claims : ClaimSet)
    (hlen : ¬audiences.length = 0)
    (hsplit : splitDot token = [p0, p1, p2])
    (hdec : decodeSegment p1 = .ok c)
    (hjson : env.jsonParse c = some cj)
    (hun : unmarshalClaims cj = .ok claims) :
    VerifyToken env token audiences issuers certs =
      if issuerRejected issuers claims.iss then .error .invalidIssuer
      else if !inArray audiences claims.aud then .error .invalidAudience
      else if env.now.afterUnix claims.exp then .error .expired
      else verifyHeaderPhase env token p0 p1 p2 claims certs := by
  unfold VerifyToken
  rw [if_neg hlen]
  simp only [hsplit, hdec, hjson, hun]

end Gitkit

namespace Gitkit

/-- C1: whenever `VerifyToken` returns a `Token`, the run split the token
into three segments, decoded and unmarshalled the header, looked up the
certificate under the header's key id, decoded the signature segment, and
passed the RSA/SHA-256 signature check over the exact bytes of
`header_segment + "." + payload_segment` with that certificate; no success
path skips the check. -/
theorem verifyToken_ok_signature {Cert : Type} (env : VerifyEnv Cert) (token : Str)
    (audiences : List String) (issuers : Option (List String))
    (certs : Certificates Cert) (t : Token)
    (h : VerifyToken env token audiences issuers certs = .ok t) :
    ∃ p0 p1 p2 hbytes hj header cert sig,
      splitDot token = [p0, p1, p2] ∧
      decodeSegment p0 = .ok hbytes ∧
      env.jsonParse hbytes = some hj ∧
      unmarshalHeader hj = .ok header ∧
      certs.lookupCert header.keyID = .ok cert ∧
      decodeSegment p2 = .ok sig ∧
      env.checkSig cert (p0 ++ '.' :: p1) sig = true := by
  unfold VerifyToken at h
  split at h
  · exact absurd h (by simp)
  · split at h
    next p0 p1 p2 hsplit =>
      split at h
      · exact absurd h (by simp)
      next c hdec =>
        split at h
        · exact absurd h (by simp)
        next cj hjson =>
          split at h
          · exact absurd h (by simp)
          next claims hun =>
            split at h
            · exact absurd h (by simp)
            · split at h
              · exact absurd h (by simp)
              · split at h
                · exact absurd h (by simp)
                · obtain ⟨hbytes, hj, header, cert, sig, h1, h2, h3, _, h5, h6, h7, _⟩ :=
                    verifyHeaderPhase_ok env token p0 p1 p2 claims certs t h
                  exact ⟨p0, p1, p2, hbytes, hj, header, cert, sig,
                    hsplit, h1, h2, h3, h5, h6, h7⟩
    next hne =>
      exact absurd h (by simp)

/-- Witness for C1: a full successful run on the fixture token. -/
theorem verifyToken_ok_signature_witness :
    ∃ p0 p1 p2 hbytes hj header cert sig,
      splitDot tokenA = [p0, p1, p2] ∧
      decodeSegment p0 = .ok hbytes ∧
      (fixtureEnv ⟨0, 0⟩).jsonParse hbytes = some hj ∧
      unmarshalHeader hj = .ok header ∧
      fixtureCerts.lookupCert header.keyID = .ok cert ∧
      decodeSegment p2 = .ok sig ∧
      (fixtureEnv ⟨0, 0⟩).checkSig cert (p0 ++ '.' :: p1) sig = true :=
  verifyToken_ok_signature (fixtureEnv ⟨0, 0⟩) tokenA ["a"] none fixtureCerts
    (mkVerifiedToken claimsA tokenA) (by rfl)

end Gitkit

namespace Gitkit

/-- A membership witness forces the audience list to be nonempty. -/
theorem inArray_length_ne_zero {a : List String} {e : String}
    (h : inArray a e = true) : ¬a.length = 0 := by
  cases a with
  | nil => simp [inArray] at h
  | cons v rest => simp

/-- C2: a token whose decoded `exp` lies in the past at call time, and which
passes the issuer and audience checks, is rejected as `Expired` for every
header segment, signature segment and signature-check behaviour — the expiry
comparison runs before the header is decoded and before signature
verification is attempted. -/
theorem verifyToken_expired {Cert : Type} (env : VerifyEnv Cert) (token : Str)
    (audiences : List String) (issuers : Option (List String)) (certs : Certificates Cert)
    (p0 p1 p2 : Str) (c : List Nat) (cj : Json) (claims : ClaimSet)
    (hsplit : splitDot token = [p0, p1, p2])
    (hdec : decodeSegment p1 = .ok c)
    (hjson : env.jsonParse c = some cj)
    (hun : unmarshalClaims cj = .ok claims)
    (hiss : issuerRejected issuers claims.iss = false)
    (haud : inArray audiences claims.aud = true)
    (hexp : env.now.afterUnix claims.exp = true) :
    VerifyToken env token audiences issuers certs = .error .expired := by
  rw [VerifyToken_eq_checks env token audiences issuers certs p0 p1 p2 c cj claims
    (inArray_length_ne_zero haud) hsplit hdec hjson hun]
  simp [hiss, haud, hexp]

/-- Witness for C2: an expired fixture token whose header segment `!` is not
even valid base64 and whose signature check would accept anything, still
rejected as `Expired`. -/
theorem verifyToken_expired_witness :
    VerifyToken (fixtureEnv ⟨2, 0⟩) ('!' :: '.' :: payloadASeg ++ '.' :: sigSeg)
      ["a"] none fixtureCerts = .error .expired :=
  verifyToken_expired (fixtureEnv ⟨2, 0⟩) ('!' :: '.' :: payloadASeg ++ '.' :: sigSeg)
    ["a"] none fixtureCerts ['!'] payloadASeg sigSeg payloadABytes payloadAJson claimsA
    (by rfl) (by rfl) (by rfl) (by rfl) (by rfl) (by rfl) (by rfl)

/-- Counterexample to C3 as stated: with an empty but non-nil issuers list
the very same token that succeeds under a nil issuers argument is rejected
with `InvalidIssuer`, so an empty issuers list does not skip the check. -/
theorem issuers_empty_counterexample :
    VerifyToken (fixtureEnv ⟨0, 0⟩) tokenA ["a"] (some []) fixtureCerts
        = .error .invalidIssuer
      ∧ VerifyToken (fixtureEnv ⟨0, 0⟩) tokenA ["a"] none fixtureCerts
        = .ok (mkVerifiedToken claimsA tokenA) :=
  ⟨by rfl, by rfl⟩

/-- C3 (amended): a nil issuers argument skips the issuer check entirely —
`VerifyToken` then never returns `InvalidIssuer` — while any non-nil issuers
list (including the empty one) makes the run fail with `InvalidIssuer`
exactly when the token's claimed `iss` is not a member of the list. -/
theorem verifyToken_issuer_check :
    (∀ (Cert : Type) (env : VerifyEnv Cert) (token : Str) (audiences : List String)
        (certs : Certificates Cert),
      VerifyToken env token audiences none certs ≠ .error .invalidIssuer)
    ∧ ∀ (Cert : Type) (env : VerifyEnv Cert) (token : Str) (audiences : List String)
        (is : List String) (certs : Certificates Cert)
        (p0 p1 p2 : Str) (c : List Nat) (cj : Json) (claims : ClaimSet),
        ¬audiences.length = 0 →
        splitDot token = [p0, p1, p2] →
        decodeSegment p1 = .ok c →
        env.jsonParse c = some cj →
        unmarshalClaims cj = .ok claims →
        (VerifyToken env token audiences (some is) certs = .error .invalidIssuer
          ↔ inArray is claims.iss = false) := by
  constructor
  · intro Cert env token audiences certs h
    unfold VerifyToken at h
    split at h
    · simp at h
    · split at h
      next p0 p1 p2 hsplit =>
        split at h
        · simp at h
        next c hdec =>
          split at h
          · simp at h
          next cj hjson =>
            split at h
            · simp at h
            next claims hun =>
              split at h
              next hrej => simp [issuerRejected] at hrej
              · split at h
                · simp at h
                · split at h
                  · simp at h
                  · exact verifyHeaderPhase_ne_invalidIssuer env token p0 p1 p2 claims certs h
      next hne => simp at h
  · intro Cert env token audiences is certs p0 p1 p2 c cj claims hlen hsplit hdec hjson hun
    rw [VerifyToken_eq_checks env token audiences (some is) certs p0 p1 p2 c cj claims
      hlen hsplit hdec hjson hun]
    cases hmem : inArray is claims.iss with
    | false => simp [issuerRejected, hmem]
    | true =>
      have hrej : issuerRejected (some is) claims.iss = false := by
        simp [issuerRejected, hmem]
      simp only [hrej, Bool.false_eq_true, if_false, hmem]
      constructor
      · intro h
        split_ifs at h with h1 h2
        · simp at h
        · simp at h
        · exact absurd h (verifyHeaderPhase_ne_invalidIssuer env token p0 p1 p2 claims certs)
      · intro h
        simp at h

end Gitkit

namespace Gitkit

/-- Witness for C3 (amended): the nil-issuers part on the fixture token, and
the membership equivalence for the non-nil list `["Z"]` against claimed
issuer `I`. -/
theorem verifyToken_issuer_check_witness :
    (VerifyToken (fixtureEnv ⟨0, 0⟩) tokenA ["a"] none fixtureCerts ≠ .error .invalidIssuer)
      ∧ (VerifyToken (fixtureEnv ⟨0, 0⟩) tokenA ["a"] (some ["Z"]) fixtureCerts
            = .error .invalidIssuer
          ↔ inArray ["Z"] claimsA.iss = false) :=
  ⟨verifyToken_issuer_check.1 Unit (fixtureEnv ⟨0, 0⟩) tokenA ["a"] fixtureCerts,
    verifyToken_issuer_check.2 Unit (fixtureEnv ⟨0, 0⟩) tokenA ["a"] ["Z"] fixtureCerts
      hdrSeg payloadASeg sigSeg payloadABytes payloadAJson claimsA
      (by decide) (by rfl) (by rfl) (by rfl) (by rfl)⟩

/-- Counterexample to C4 as stated: an undecodable header segment is
reported as the pass-through base64 corrupt-input error, not as
`ErrMalformed`; with a failing audience the same undecodable header yields
`InvalidAudience`; and with no audiences a two-segment token yields
`MissingAudience` — in all three cases the claim predicts `Malformed`. -/
theorem verifyToken_malformed_counterexample :
    VerifyToken (fixtureEnv ⟨0, 0⟩) ('!' :: '.' :: payloadASeg ++ '.' :: sigSeg)
        ["a"] none fixtureCerts = .error .corruptInput
      ∧ VError.corruptInput ≠ VError.malformed
      ∧ VerifyToken (fixtureEnv ⟨0, 0⟩) ('!' :: '.' :: payloadBadAudSeg ++ '.' :: sigSeg)
        ["a"] none fixtureCerts = .error .invalidAudience
      ∧ VerifyToken (fixtureEnv ⟨0, 0⟩) "ab".data [] none fixtureCerts
        = .error .missingAudience :=
  ⟨by rfl, by decide, by rfl, by rfl⟩

/-- C4 (amended): with a nonempty audiences argument, a segment count other
than three, an undecodable or unparsable payload segment, and — once the
issuer, audience and expiry checks pass — an unparsable (but decodable)
header segment all yield `ErrMalformed`, while an undecodable header segment
yields the underlying base64 corrupt-input error instead. -/
theorem verifyToken_malformed_cases :
    (∀ (Cert : Type) (env : VerifyEnv Cert) (token : Str) (audiences : List String)
        (issuers : Option (List String)) (certs : Certificates Cert),
      ¬audiences.length = 0 → ¬(splitDot token).length = 3 →
      VerifyToken env token audiences issuers certs = .error .malformed)
    ∧ (∀ (Cert : Type) (env : VerifyEnv Cert) (token : Str) (audiences : List String)
        (issuers : Option (List String)) (certs : Certificates Cert) (p0 p1 p2 : Str),
      ¬audiences.length = 0 → splitDot token = [p0, p1, p2] →
      decodeSegment p1 = .error () →
      VerifyToken env token audiences issuers certs = .error .malformed)
    ∧ (∀ (Cert : Type) (env : VerifyEnv Cert) (token : Str) (audiences : List String)
        (issuers : Option (List String)) (certs : Certificates Cert) (p0 p1 p2 : Str)
        (c : List Nat),
      ¬audiences.length = 0 → splitDot token = [p0, p1, p2] →
      decodeSegment p1 = .ok c → env.jsonParse c = none →
      VerifyToken env token audiences issuers certs = .error .malformed)
    ∧ (∀ (Cert : Type) (env : VerifyEnv Cert) (token : Str) (audiences : List String)
        (issuers : Option (List String)) (certs : Certificates Cert) (p0 p1 p2 : Str)
        (c : List Nat) (cj : Json),
      ¬audiences.length = 0 → splitDot token = [p0, p1, p2] →
      decodeSegment p1 = .ok c → env.jsonParse c = some cj →
      unmarshalClaims cj = .error () →
      VerifyToken env token audiences issuers certs = .error .malformed)
    ∧ (∀ (Cert : Type) (env : VerifyEnv Cert) (token : Str) (audiences : List String)
        (issuers : Option (List String)) (certs : Certificates Cert) (p0 p1 p2 : Str)
        (c : List Nat) (cj : Json) (claims : ClaimSet),
      splitDot token = [p0, p1, p2] →
      decodeSegment p1 = .ok c → env.jsonParse c = some cj →
      unmarshalClaims cj = .ok claims →
      issuerRejected issuers claims.iss = false →
      inArray audiences claims.aud = true →
      env.now.afterUnix claims.exp = false →
      decodeSegment p0 = .error () →
      VerifyToken env token audiences issuers certs = .error .corruptInput)
    ∧ (∀ (Cert : Type) (env : VerifyEnv Cert) (token : Str) (audiences : List String)
        (issuers : Option (List String)) (certs : Certificates Cert) (p0 p1 p2 : Str)
        (c : List Nat) (cj : Json) (claims : ClaimSet) (h : List Nat),
      splitDot token = [p0, p1, p2] →
      decodeSegment p1 = .ok c → env.jsonParse c = some cj →
      unmarshalClaims cj = .ok claims →
      issuerRejected issuers claims.iss = false →
      inArray audiences claims.aud = true →
      env.now.afterUnix claims.exp = false →
      decodeSegment p0 = .ok h → env.jsonParse h = none →
      VerifyToken env token audiences issuers certs = .error .malformed)
    ∧ ∀ (Cert : Type) (env : VerifyEnv Cert) (token : Str) (audiences : List String)
        (issuers : Option (List String)) (certs : Certificates Cert) (p0 p1 p2 : Str)
        (c : List Nat) (cj : Json) (claims : ClaimSet) (h : List Nat) (hj : Json),
      splitDot token = [p0, p1, p2] →
      decodeSegment p1 = .ok c → env.jsonParse c = some cj →
      unmarshalClaims cj = .ok claims →
      issuerRejected issuers claims.iss = false →
      inArray audiences claims.aud = true →
      env.now.afterUnix claims.exp = false →
      decodeSegment p0 = .ok h → env.jsonParse h = some hj →
      unmarshalHeader hj = .error () →
      VerifyToken env token audiences issuers certs = .error .malformed := by
  refine ⟨?_, ?_, ?_, ?_, ?_, ?_, ?_⟩
  · intro Cert env token audiences issuers certs hlen hne
    unfold VerifyToken
    rw [if_neg hlen]
    rcases h3 : splitDot token with _ | ⟨a, _ | ⟨b, _ | ⟨c, _ | ⟨d, e⟩⟩⟩⟩
    · simp
    · simp
    · simp
    · exact absurd (by simp [h3]) hne
    · simp
  · intro Cert env token audiences issuers certs p0 p1 p2 hlen hsplit hdec
    unfold VerifyToken
    rw [if_neg hlen]
    simp only [hsplit, hdec]
  · intro Cert env token audiences issuers certs p0 p1 p2 c hlen hsplit hdec hjson
    unfold VerifyToken
    rw [if_neg hlen]
    simp only [hsplit, hdec, hjson]
  · intro Cert env token audiences issuers certs p0 p1 p2 c cj hlen hsplit hdec hjson hun
    unfold VerifyToken
    rw [if_neg hlen]
    simp only [hsplit, hdec, hjson, hun]
  · intro Cert env token audiences issuers certs p0 p1 p2 c cj claims
      hsplit hdec hjson hun hiss haud hexp hdec0
    rw [VerifyToken_eq_checks env token audiences issuers certs p0 p1 p2 c cj claims
      (inArray_length_ne_zero haud) hsplit hdec hjson hun]
    simp only [hiss, haud, hexp, Bool.false_eq_true, if_false, Bool.not_true]
    unfold verifyHeaderPhase
    simp only [hdec0]
  · intro Cert env token audiences issuers certs p0 p1 p2 c cj claims h
      hsplit hdec hjson hun hiss haud hexp hdec0 hjson0
    rw [VerifyToken_eq_checks env token audiences issuers certs p0 p1 p2 c cj claims
      (inArray_length_ne_zero haud) hsplit hdec hjson hun]
    simp only [hiss, haud, hexp, Bool.false_eq_true, if_false, Bool.not_true]
    unfold verifyHeaderPhase
    simp only [hdec0, hjson0]
  · intro Cert env token audiences issuers certs p0 p1 p2 c cj claims h hj
      hsplit hdec hjson hun hiss haud hexp hdec0 hjson0 hun0
    rw [VerifyToken_eq_checks env token audiences issuers certs p0 p1 p2 c cj claims
      (inArray_length_ne_zero haud) hsplit hdec hjson hun]
    simp only [hiss, haud, hexp, Bool.false_eq_true, if_false, Bool.not_true]
    unfold verifyHeaderPhase
    simp only [hdec0, hjson0, hun0]

end Gitkit

namespace Gitkit

/-- Witness for C4 (amended): all seven cases discharged on concrete fixture
tokens. -/
theorem verifyToken_malformed_cases_witness :
    VerifyToken (fixtureEnv ⟨0, 0⟩) "ab".data ["a"] none fixtureCerts = .error .malformed
      ∧ VerifyToken (fixtureEnv ⟨0, 0⟩) "A.!.A".data ["a"] none fixtureCerts
        = .error .malformed
      ∧ VerifyToken (fixtureEnv ⟨0, 0⟩) "AA.AA.AA".data ["a"] none fixtureCerts
        = .error .malformed
      ∧ VerifyToken (fixtureEnv ⟨0, 0⟩)
          (sigSeg ++ '.' :: encodeUnpaddedBase64url payloadBadTypeBytes ++ '.' :: sigSeg)
          ["a"] none fixtureCerts = .error .malformed
      ∧ VerifyToken (fixtureEnv ⟨0, 0⟩) ('!' :: '.' :: payloadASeg ++ '.' :: sigSeg)
          ["a"] none fixtureCerts = .error .corruptInput
      ∧ VerifyToken (fixtureEnv ⟨0, 0⟩) (sigSeg ++ '.' :: payloadASeg ++ '.' :: sigSeg)
          ["a"] none fixtureCerts = .error .malformed
      ∧ VerifyToken (fixtureEnv ⟨0, 0⟩)
          (encodeUnpaddedBase64url hdrBadTypeBytes ++ '.' :: payloadASeg ++ '.' :: sigSeg)
          ["a"] none fixtureCerts = .error .malformed :=
  ⟨verifyToken_malformed_cases.1 Unit (fixtureEnv ⟨0, 0⟩) "ab".data ["a"] none fixtureCerts
      (by decide) (by decide),
    verifyToken_malformed_cases.2.1 Unit (fixtureEnv ⟨0, 0⟩) "A.!.A".data ["a"] none
      fixtureCerts ['A'] ['!'] ['A'] (by decide) (by rfl) (by rfl),
    verifyToken_malformed_cases.2.2.1 Unit (fixtureEnv ⟨0, 0⟩) "AA.AA.AA".data ["a"] none
      fixtureCerts "AA".data "AA".data "AA".data [0] (by decide) (by rfl) (by rfl) (by rfl),
    verifyToken_malformed_cases.2.2.2.1 Unit (fixtureEnv ⟨0, 0⟩)
      (sigSeg ++ '.' :: encodeUnpaddedBase64url payloadBadTypeBytes ++ '.' :: sigSeg)
      ["a"] none fixtureCerts sigSeg (encodeUnpaddedBase64url payloadBadTypeBytes) sigSeg
      payloadBadTypeBytes payloadBadTypeJson (by decide) (by rfl) (by rfl) (by rfl) (by rfl),
    verifyToken_malformed_cases.2.2.2.2.1 Unit (fixtureEnv ⟨0, 0⟩)
      ('!' :: '.' :: payloadASeg ++ '.' :: sigSeg) ["a"] none fixtureCerts
      ['!'] payloadASeg sigSeg payloadABytes payloadAJson claimsA
      (by rfl) (by rfl) (by rfl) (by rfl) (by rfl) (by rfl) (by rfl) (by rfl),
    verifyToken_malformed_cases.2.2.2.2.2.1 Unit (fixtureEnv ⟨0, 0⟩)
      (sigSeg ++ '.' :: payloadASeg ++ '.' :: sigSeg) ["a"] none fixtureCerts
      sigSeg payloadASeg sigSeg payloadABytes payloadAJson claimsA [0]
      (by rfl) (by rfl) (by rfl) (by rfl) (by rfl) (by rfl) (by rfl) (by rfl) (by rfl),
    verifyToken_malformed_cases.2.2.2.2.2.2 Unit (fixtureEnv ⟨0, 0⟩)
      (encodeUnpaddedBase64url hdrBadTypeBytes ++ '.' :: payloadASeg ++ '.' :: sigSeg)
      ["a"] none fixtureCerts (encodeUnpaddedBase64url hdrBadTypeBytes) payloadASeg sigSeg
      payloadABytes payloadAJson claimsA hdrBadTypeBytes hdrBadTypeJson
      (by rfl) (by rfl) (by rfl) (by rfl) (by rfl) (by rfl) (by rfl) (by rfl) (by rfl) (by rfl)⟩

end Gitkit

namespace Gitkit

/-! ## Absent claims keep their zero values -/

set_option maxHeartbeats 1000000 in
/-- An entry whose key does not match `aud` leaves that field alone. -/
theorem setClaimField_aud (cs cs' : ClaimSet) (k : String) (v : Json)
    (hk : keyMatches k "aud" = false)
    (h : setClaimField cs k v = .ok cs') : cs'.aud = cs.aud := by
  unfold setClaimField at h
  split_ifs at h with h1 h2 h3 h4 h5 h6 h7 h8 h9 h10
  · cases hv : jsonAsString v cs.iss with
    | error e => rw [hv] at h; exact absurd h (by simp [Except.map])
    | ok a =>
      rw [hv] at h
      simp only [Except.map] at h
      injection h with h
      rw [← h]
  · exact absurd h2 (by simp [hk])
  · cases hv : jsonAsInt v cs.iat with
    | error e => rw [hv] at h; exact absurd h (by simp [Except.map])
    | ok a =>
      rw [hv] at h
      simp only [Except.map] at h
      injection h with h
      rw [← h]
  · cases hv : jsonAsInt v cs.exp with
    | error e => rw [hv] at h; exact absurd h (by simp [Except.map])
    | ok a =>
      rw [hv] at h
      simp only [Except.map] at h
      injection h with h
      rw [← h]
  · cases hv : jsonAsString v cs.userID with
    | error e => rw [hv] at h; exact absurd h (by simp [Except.map])
    | ok a =>
      rw [hv] at h
      simp only [Except.map] at h
      injection h with h
      rw [← h]
  · cases hv : jsonAsString v cs.email with
    | error e => rw [hv] at h; exact absurd h (by simp [Except.map])
    | ok a =>
      rw [hv] at h
      simp only [Except.map] at h
      injection h with h
      rw [← h]
  · cases hv : jsonAsBool v cs.verified with
    | error e => rw [hv] at h; exact absurd h (by simp [Except.map])
    | ok a =>
      rw [hv] at h
      simp only [Except.map] at h
      injection h with h
      rw [← h]
  · cases hv : jsonAsString v cs.providerID with
    | error e => rw [hv] at h; exact absurd h (by simp [Except.map])
    | ok a =>
      rw [hv] at h
      simp only [Except.map] at h
      injection h with h
      rw [← h]
  · cases hv : jsonAsString v cs.displayName with
    | error e => rw [hv] at h; exact absurd h (by simp [Except.map])
    | ok a =>
      rw [hv] at h
      simp only [Except.map] at h
      injection h with h
      rw [← h]
  · cases hv : jsonAsString v cs.photoURL with
    | error e => rw [hv] at h; exact absurd h (by simp [Except.map])
    | ok a =>
      rw [hv] at h
      simp only [Except.map] at h
      injection h with h
      rw [← h]
  · injection h with h
    rw [← h]

set_option maxHeartbeats 1000000 in
/-- An entry whose key does not match `exp` leaves that field alone. -/
theorem setClaimField_exp (cs cs' : ClaimSet) (k : String) (v : Json)
    (hk : keyMatches k "exp" = false)
    (h : setClaimField cs k v = .ok cs') : cs'.exp = cs.exp := by
  unfold setClaimField at h
  split_ifs at h with h1 h2 h3 h4 h5 h6 h7 h8 h9 h10
  · cases hv : jsonAsString v cs.iss with
    | error e => rw [hv] at h; exact absurd h (by simp [Except.map])
    | ok a =>
      rw [hv] at h
      simp only [Except.map] at h
      injection h with h
      rw [← h]
  · cases hv : jsonAsString v cs.aud with
    | error e => rw [hv] at h; exact absurd h (by simp [Except.map])
    | ok a =>
      rw [hv] at h
      simp only [Except.map] at h
      injection h with h
      rw [← h]
  · cases hv : jsonAsInt v cs.iat with
    | error e => rw [hv] at h; exact absurd h (by simp [Except.map])
    | ok a =>
      rw [hv] at h
      simp only [Except.map] at h
      injection h with h
      rw [← h]
  · exact absurd h4 (by simp [hk])
  · cases hv : jsonAsString v cs.userID with
    | error e => rw [hv] at h; exact absurd h (by simp [Except.map])
    | ok a =>
      rw [hv] at h
      simp only [Except.map] at h
      injection h with h
      rw [← h]
  · cases hv : jsonAsString v cs.email with
    | error e => rw [hv] at h; exact absurd h (by simp [Except.map])
    | ok a =>
      rw [hv] at h
      simp only [Except.map] at h
      injection h with h
      rw [← h]
  · cases hv : jsonAsBool v cs.verified with
    | error e => rw [hv] at h; exact absurd h (by simp [Except.map])
    | ok a =>
      rw [hv] at h
      simp only [Except.map] at h
      injection h with h
      rw [← h]
  · cases hv : jsonAsString v cs.providerID with
    | error e => rw [hv] at h; exact absurd h (by simp [Except.map])
    | ok a =>
      rw [hv] at h
      simp only [Except.map] at h
      injection h with h
      rw [← h]
  · cases hv : jsonAsString v cs.displayName with
    | error e => rw [hv] at h; exact absurd h (by simp [Except.map])
    | ok a =>
      rw [hv] at h
      simp only [Except.map] at h
      injection h with h
      rw [← h]
  · cases hv : jsonAsString v cs.photoURL with
    | error e => rw [hv] at h; exact absurd h (by simp [Except.map])
    | ok a =>
      rw [hv] at h
      simp only [Except.map] at h
      injection h with h
      rw [← h]
  · injection h with h
    rw [← h]

end Gitkit

namespace Gitkit

/-- The decoder loop preserves the `aud` field when no entry matches it. -/
theorem applyClaimEntries_aud (fields : List (String × Json)) (cs cs' : ClaimSet)
    (hk : ∀ kv ∈ fields, keyMatches kv.1 "aud" = false)
    (h : applyClaimEntries cs fields = .ok cs') : cs'.aud = cs.aud := by
  induction fields generalizing cs with
  | nil =>
    unfold applyClaimEntries at h
    injection h with h
    rw [← h]
  | cons kv rest ih =>
    unfold applyClaimEntries at h
    cases hstep : setClaimField cs kv.1 kv.2 with
    | error err => rw [hstep] at h; simp at h
    | ok cs1 =>
      rw [hstep] at h
      have h1 := setClaimField_aud cs cs1 kv.1 kv.2 (hk kv (by simp)) hstep
      have h2 := ih cs1 (fun e he => hk e (by simp [he])) h
      rw [h2, h1]

/-- The decoder loop preserves the `exp` field when no entry matches it. -/
theorem applyClaimEntries_exp (fields : List (String × Json)) (cs cs' : ClaimSet)
    (hk : ∀ kv ∈ fields, keyMatches kv.1 "exp" = false)
    (h : applyClaimEntries cs fields = .ok cs') : cs'.exp = cs.exp := by
  induction fields generalizing cs with
  | nil =>
    unfold applyClaimEntries at h
    injection h with h
    rw [← h]
  | cons kv rest ih =>
    unfold applyClaimEntries at h
    cases hstep : setClaimField cs kv.1 kv.2 with
    | error err => rw [hstep] at h; simp at h
    | ok cs1 =>
      rw [hstep] at h
      have h1 := setClaimField_exp cs cs1 kv.1 kv.2 (hk kv (by simp)) hstep
      have h2 := ih cs1 (fun e he => hk e (by simp [he])) h
      rw [h2, h1]

/-- A payload object with no `aud` member unmarshals with `aud = ""`. -/
theorem unmarshalClaims_no_aud (fields : List (String × Json)) (claims : ClaimSet)
    (hk : ∀ kv ∈ fields, keyMatches kv.1 "aud" = false)
    (h : unmarshalClaims (.jobj fields) = .ok claims) : claims.aud = "" :=
  applyClaimEntries_aud fields {} claims hk h

/-- A payload object with no `exp` member unmarshals with `exp = 0`. -/
theorem unmarshalClaims_no_exp (fields : List (String × Json)) (claims : ClaimSet)
    (hk : ∀ kv ∈ fields, keyMatches kv.1 "exp" = false)
    (h : unmarshalClaims (.jobj fields) = .ok claims) : claims.exp = 0 :=
  applyClaimEntries_exp fields {} claims hk h

end Gitkit

namespace Gitkit

/-- C10: `VerifyToken` performs no presence checks on claims.  A payload
object lacking `aud` unmarshals to audience `""` and fails the audience
membership check with `InvalidAudience` (unless the audience list contains
the empty string); one lacking `exp` is treated as expiry Unix time 0 and
yields `Expired` once the earlier checks pass; neither case is `Malformed`
or a missing-field error. -/
theorem verifyToken_no_presence_checks :
    (∀ (Cert : Type) (env : VerifyEnv Cert) (token : Str) (audiences : List String)
        (issuers : Option (List String)) (certs : Certificates Cert) (p0 p1 p2 : Str)
        (c : List Nat) (fields : List (String × Json)) (claims : ClaimSet),
      splitDot token = [p0, p1, p2] →
      decodeSegment p1 = .ok c →
      env.jsonParse c = some (.jobj fields) →
      unmarshalClaims (.jobj fields) = .ok claims →
      (∀ kv ∈ fields, keyMatches kv.1 "aud" = false) →
      ¬audiences.length = 0 →
      inArray audiences "" = false →
      issuerRejected issuers claims.iss = false →
      VerifyToken env token audiences issuers certs = .error .invalidAudience)
    ∧ ∀ (Cert : Type) (env : VerifyEnv Cert) (token : Str) (audiences : List String)
        (issuers : Option (List String)) (certs : Certificates Cert) (p0 p1 p2 : Str)
        (c : List Nat) (fields : List (String × Json)) (claims : ClaimSet),
      splitDot token = [p0, p1, p2] →
      decodeSegment p1 = .ok c →
      env.jsonParse c = some (.jobj fields) →
      unmarshalClaims (.jobj fields) = .ok claims →
      (∀ kv ∈ fields, keyMatches kv.1 "exp" = false) →
      issuerRejected issuers claims.iss = false →
      inArray audiences claims.aud = true →
      env.now.afterUnix 0 = true →
      VerifyToken env token audiences issuers certs = .error .expired := by
  constructor
  · intro Cert env token audiences issuers certs p0 p1 p2 c fields claims
      hsplit hdec hjson hun hnok hlen hempty hiss
    rw [VerifyToken_eq_checks env token audiences issuers certs p0 p1 p2 c
      (.jobj fields) claims hlen hsplit hdec hjson hun]
    have haud : claims.aud = "" := unmarshalClaims_no_aud fields claims hnok hun
    simp [hiss, haud, hempty]
  · intro Cert env token audiences issuers certs p0 p1 p2 c fields claims
      hsplit hdec hjson hun hnok hiss haud hafter
    rw [VerifyToken_eq_checks env token audiences issuers certs p0 p1 p2 c
      (.jobj fields) claims (inArray_length_ne_zero haud) hsplit hdec hjson hun]
    have hexp : claims.exp = 0 := unmarshalClaims_no_exp fields claims hnok hun
    simp [hiss, haud, hexp, hafter]

/-- Witness for C10: a payload without `aud` yields `InvalidAudience`, and a
payload without `exp` yields `Expired`, on concrete fixture tokens. -/
theorem verifyToken_no_presence_checks_witness :
    VerifyToken (fixtureEnv ⟨1, 0⟩) (hdrSeg ++ '.' :: payloadNoAudSeg ++ '.' :: sigSeg)
        ["a"] none fixtureCerts = .error .invalidAudience
      ∧ VerifyToken (fixtureEnv ⟨1, 0⟩) (hdrSeg ++ '.' :: payloadNoExpSeg ++ '.' :: sigSeg)
        ["a"] none fixtureCerts = .error .expired :=
  ⟨verifyToken_no_presence_checks.1 Unit (fixtureEnv ⟨1, 0⟩)
      (hdrSeg ++ '.' :: payloadNoAudSeg ++ '.' :: sigSeg) ["a"] none fixtureCerts
      hdrSeg payloadNoAudSeg sigSeg payloadNoAudBytes [("exp", .jnum 1)] { exp := 1 }
      (by rfl) (by rfl) (by rfl) (by rfl) (by decide) (by decide) (by decide) (by rfl),
    verifyToken_no_presence_checks.2 Unit (fixtureEnv ⟨1, 0⟩)
      (hdrSeg ++ '.' :: payloadNoExpSeg ++ '.' :: sigSeg) ["a"] none fixtureCerts
      hdrSeg payloadNoExpSeg sigSeg payloadNoExpBytes [("aud", .jstr "a")] { aud := "a" }
      (by rfl) (by rfl) (by rfl) (by rfl) (by decide) (by rfl) (by decide) (by rfl)⟩

end Gitkit

namespace Gitkit

/-! ## Certificate cache claims -/

/-- A `Certificates` value with an empty map, no recorded error and no
pending timer. -/
def emptyCache : Certificates Unit := ⟨[], "", none, none⟩

/-- C5: evaluation of `Cert` on an empty cache with no recorded error.  The
not-found error message formats the nil last-error (`%!s(<nil>)`) instead of
the key id, so the error is identical for different key ids and names
neither. -/
theorem cert_notFound_formats_nil_error :
    emptyCache.lookupCert "abc"
        = .error (.notFound "certificate not found for: %!s(<nil>)")
      ∧ emptyCache.lookupCert "abc" = emptyCache.lookupCert "xyz" :=
  ⟨rfl, rfl⟩

/-- Bytes of a certificate-endpoint response whose single entry is not
PEM-encoded. -/
def certsBodyBytes : List Nat := asciiBytes "\x7b\"40QoZg\":\"not a pem\"\x7d"

/-- The parsed form of `certsBodyBytes`. -/
def certsBodyJson : Json := .jobj [("40QoZg", .jstr "not a pem")]

/-- Fixture certificate-refresh environment: the parser knows the one
response body above, `pem.Decode` finds no block in `not a pem` (returning a
nil pointer), and `x509.ParseCertificate` rejects everything. -/
def certFixtureEnv : CertEnv Unit :=
  { jsonParse := fun b => if b = certsBodyBytes then some certsBodyJson else none
    jsonErrMsg := fun _ => "invalid character"
    pemDecode := fun _ => none
    parseCertificate := fun _ => .error "x509: malformed certificate" }

/-- Like `certFixtureEnv`, but `pem.Decode` finds a block whose contents
`x509.ParseCertificate` then rejects. -/
def certFixtureEnvDER : CertEnv Unit :=
  { jsonParse := fun b => if b = certsBodyBytes then some certsBodyJson else none
    jsonErrMsg := fun _ => "invalid character"
    pemDecode := fun _ => some [48]
    parseCertificate := fun _ => .error "x509: malformed certificate" }

/-- C6: on a response in which an entry's value contains no PEM block,
`parseCerts` panics (the nil `block.Bytes` dereference) instead of returning
an error, while an entry that is a PEM block with rejected certificate
contents makes the whole parse return an error with no partial map. -/
theorem parseCerts_panics_on_nonPEM :
    parseCerts certFixtureEnv certsBodyBytes = .panic
      ∧ parseCerts certFixtureEnvDER certsBodyBytes = .fail "x509: malformed certificate" :=
  ⟨rfl, rfl⟩

/-- C7: whenever the certificate fetch fails — transport error, non-200
status, or body parse error — `update` records the failure as the cache's
last error, leaves the certificate map (and everything else) unchanged, and
schedules the next refresh after the fixed 30-second retry interval. -/
theorem update_failure_keeps_certs :
    ∀ (Cert : Type) (env : CertEnv Cert) (c : Certificates Cert)
      (resp : Except String HttpResponse),
      ((∃ e, resp = .error e) ∨ (∃ r, resp = .ok r ∧ ¬r.status = 200) ∨
          ∃ r msg, resp = .ok r ∧ parseCerts env r.body = .fail msg) →
      ∃ e, downloadCerts env c.url resp = .fail e ∧
        c.update env resp = .ok { c with err := some e, nextDelay := some retryInterval } := by
  intro Cert env c resp h
  rcases h with ⟨e, rfl⟩ | ⟨r, rfl, hs⟩ | ⟨r, msg, rfl, hp⟩
  · exact ⟨e, rfl, by simp [Certificates.update, downloadCerts]⟩
  · refine ⟨"get " ++ c.url ++ ": " ++ r.statusLine, ?_, ?_⟩
    · simp [downloadCerts, hs]
    · simp [Certificates.update, downloadCerts, hs]
  · by_cases hst : r.status = 200
    · refine ⟨msg, ?_, ?_⟩
      · simp [downloadCerts, hst, hp]
      · simp [Certificates.update, downloadCerts, hst, hp]
    · refine ⟨"get " ++ c.url ++ ": " ++ r.statusLine, ?_, ?_⟩
      · simp [downloadCerts, hst]
      · simp [Certificates.update, downloadCerts, hst]

/-- An HTTP 500 response advertising a 7200-second cache time. -/
def http500 : HttpResponse := ⟨500, "500 Internal Server Error", "max-age=7200".data, []⟩

/-- A cache loaded with one certificate and a pending 7200-second schedule. -/
def cacheBefore : Certificates Unit :=
  ⟨[("k", ())], "u", none, some (7200 * 1000000000)⟩

/-- The same cache after a failed refresh recording error `e`. -/
def cacheAfter (e : String) : Certificates Unit :=
  ⟨[("k", ())], "u", some e, some retryInterval⟩

/-- Witness for C7: an HTTP 500 refresh against a cache loaded with one
certificate and a pending 7200-second schedule keeps the certificate,
records the error, and reschedules after 30 seconds, not 7200. -/
theorem update_failure_keeps_certs_witness :
    ∃ e, downloadCerts certFixtureEnv "u" (.ok http500) = .fail e ∧
      Certificates.update cacheBefore certFixtureEnv (.ok http500) = .ok (cacheAfter e) :=
  update_failure_keeps_certs Unit certFixtureEnv cacheBefore (.ok http500)
    (Or.inr (Or.inl ⟨http500, rfl, by decide⟩))

end Gitkit

namespace Gitkit

/-! ## Cache-Control parsing -/

/-- The value a single `Cache-Control` directive contributes: `some n` when,
after trimming, it starts with `max-age=` and the remainder passes
`strconv.Atoi`; `none` otherwise (no prefix, or unparsable value — the scan
then continues with the next directive, as the source's loop does). -/
def maxAgeValue (s : Str) : Option Int :=
  if ("max-age=".data).isPrefixOf (trimSpace s) then goAtoi ((trimSpace s).drop 8)
  else none

/-- One step of the `cacheTime` scan, phrased through `maxAgeValue`. -/
theorem cacheTimeScan_cons (s : Str) (rest : List Str) :
    cacheTimeScan (s :: rest) =
      match maxAgeValue s with
      | some d => durationSeconds d
      | none => cacheTimeScan rest := by
  rw [show cacheTimeScan (s :: rest) =
      (if ("max-age=".data).isPrefixOf (trimSpace s) then
        match goAtoi ((trimSpace s).drop 8) with
        | some d => durationSeconds d
        | none => cacheTimeScan rest
      else cacheTimeScan rest) from rfl]
  unfold maxAgeValue
  by_cases hp : ("max-age=".data).isPrefixOf (trimSpace s)
  · simp [hp]
  · simp [hp]

/-- Directives contributing no value are skipped. -/
theorem cacheTimeScan_skip (pre : List Str) (l : List Str)
    (hpre : ∀ s ∈ pre, maxAgeValue s = none) :
    cacheTimeScan (pre ++ l) = cacheTimeScan l := by
  induction pre with
  | nil => rfl
  | cons s rest ih =>
    rw [List.cons_append, cacheTimeScan_cons, hpre s (by simp)]
    exact ih fun e he => hpre e (by simp [he])

/-- A scan in which no directive contributes a value falls back to the
one-hour default. -/
theorem cacheTimeScan_none (l : List Str) (h : ∀ s ∈ l, maxAgeValue s = none) :
    cacheTimeScan l = defaultCertsCacheTime := by
  have := cacheTimeScan_skip l [] h
  simpa using this

/-- `time.Duration` multiplication is exact within the int64 range. -/
theorem durationSeconds_eq (n : Int) (h1 : -(2 ^ 63) ≤ n * 1000000000)
    (h2 : n * 1000000000 < 2 ^ 63) : durationSeconds n = n * 1000000000 := by
  unfold durationSeconds wrap64
  omega

/-- C8 (amended): when the `Cache-Control` value splits so that the first
directive carrying a parsable `max-age=` value carries `n`, and `n` seconds
fits the signed 64-bit nanosecond count, `cacheTime` returns exactly `n`
seconds; when no directive carries a parsable value — header absent (the
empty string), no `max-age` directive, or a malformed one — it returns the
one-hour default. -/
theorem cacheTime_max_age :
    (∀ (hc : Str) (pre post : List Str) (v : Str) (n : Int),
      splitOnChar ',' hc = pre ++ v :: post →
      (∀ s ∈ pre, maxAgeValue s = none) →
      maxAgeValue v = some n →
      -(2 ^ 63) ≤ n * 1000000000 →
      n * 1000000000 < 2 ^ 63 →
      cacheTime hc = n * 1000000000)
    ∧ ∀ hc : Str, (∀ s ∈ splitOnChar ',' hc, maxAgeValue s = none) →
      cacheTime hc = defaultCertsCacheTime := by
  constructor
  · intro hc pre post v n hsplit hpre hv h1 h2
    unfold cacheTime
    rw [hsplit, cacheTimeScan_skip pre _ hpre, cacheTimeScan_cons, hv]
    exact durationSeconds_eq n h1 h2
  · intro hc h
    unfold cacheTime
    exact cacheTimeScan_none _ h

/-- Witness for C8 (amended): `public, max-age=7200` yields 7200 seconds and
`public` alone yields the one-hour default. -/
theorem cacheTime_max_age_witness :
    cacheTime "public, max-age=7200".data = 7200 * 1000000000
      ∧ cacheTime "public".data = defaultCertsCacheTime :=
  ⟨cacheTime_max_age.1 "public, max-age=7200".data ["public".data] []
      " max-age=7200".data 7200 (by rfl) (by decide) (by rfl) (by decide) (by decide),
    cacheTime_max_age.2 "public".data (by decide)⟩

/-- Counterexample to C8 as stated: `max-age=9300000000` is a well-formed
directive (its value parses), yet the int64 nanosecond multiplication wraps
and `cacheTime` returns a negative duration instead of 9300000000
seconds. -/
theorem cacheTime_wrap_counterexample :
    maxAgeValue "max-age=9300000000".data = some 9300000000
      ∧ cacheTime "max-age=9300000000".data = -9146744073709551616
      ∧ ¬(-9146744073709551616 : Int) = 9300000000 * 1000000000 :=
  ⟨by rfl, by rfl, by decide⟩

end Gitkit
